import Mathlib

/-!
Verification of the signal-speed estimators of
`src/jaxfluids/solvers/riemann_solvers/signal_speeds.py`.

All functions of that module are pure and elementwise over same-shaped
arrays, so each is embedded on a single element.  Arithmetic is modelled
exactly: real numbers stand for floating-point values, `jnp.sqrt` becomes
`Real.sqrt`, `jnp.minimum` / `jnp.maximum` become `min` / `max`, and the
float cast of a boolean mask (as in `1.0 * (p_star <= p_L)`) becomes an
indicator function.

For the one claim about floating-point special values (the zero
denominator in `compute_sstar`) a second embedding of `compute_sstar` is
given over `FV`, rationals extended with infinities and a NaN, whose
operations follow the IEEE-754 special-value rules (with an unsigned
zero, so infinities produced by division by zero take the `+0`
convention; the claim only concerns non-finiteness, which is unaffected).
-/

/-- Float-like values: exact finite rationals extended with the IEEE
special values `inf`, `neginf` and `nan`. -/
inductive FV where
  | fin : ℚ → FV
  | inf : FV
  | neginf : FV
  | nan : FV
deriving DecidableEq

namespace FV

/-- IEEE negation on `FV`. -/
def neg : FV → FV
  | fin a => fin (-a)
  | inf => neginf
  | neginf => inf
  | nan => nan

/-- IEEE addition on `FV` (exact on finite values). -/
def add : FV → FV → FV
  | fin a, fin b => fin (a + b)
  | nan, _ => nan
  | _, nan => nan
  | inf, neginf => nan
  | neginf, inf => nan
  | inf, _ => inf
  | _, inf => inf
  | neginf, _ => neginf
  | _, neginf => neginf

/-- IEEE subtraction on `FV`: addition of the negation. -/
def sub (x y : FV) : FV := x.add y.neg

/-- IEEE multiplication on `FV` (exact on finite values);
`inf * 0 = nan`. -/
def mul : FV → FV → FV
  | fin a, fin b => fin (a * b)
  | nan, _ => nan
  | _, nan => nan
  | inf, fin b => if b = 0 then nan else if 0 < b then inf else neginf
  | fin a, inf => if a = 0 then nan else if 0 < a then inf else neginf
  | neginf, fin b => if b = 0 then nan else if 0 < b then neginf else inf
  | fin a, neginf => if a = 0 then nan else if 0 < a then neginf else inf
  | inf, inf => inf
  | inf, neginf => neginf
  | neginf, inf => neginf
  | neginf, neginf => inf

/-- IEEE division on `FV`: a nonzero finite value divided by zero gives
an infinity, `0 / 0 = nan` (zero is unsigned in this model, so the
infinity takes the sign of the numerator, matching division by `+0`). -/
def div : FV → FV → FV
  | fin a, fin b =>
      if b = 0 then (if a = 0 then nan else if 0 < a then inf else neginf)
      else fin (a / b)
  | nan, _ => nan
  | _, nan => nan
  | inf, fin b => if 0 ≤ b then inf else neginf
  | neginf, fin b => if 0 ≤ b then neginf else inf
  | fin _, inf => fin 0
  | fin _, neginf => fin 0
  | inf, inf => nan
  | inf, neginf => nan
  | neginf, inf => nan
  | neginf, neginf => nan

/-- A value is finite exactly when it is a `fin`. -/
def isFinite : FV → Bool
  | fin _ => true
  | _ => false

end FV

/-- `compute_sstar` re-embedded over `FV`, tracking IEEE special values:
`delta_uL = S_L - u_L`, `delta_uR = S_R - u_R`,
`rho_deltaSU = rho_L * delta_uL - rho_R * delta_uR`,
result `= 1.0 / rho_deltaSU * (p_R - p_L + rho_L * u_L * delta_uL
- rho_R * u_R * delta_uR)`, every operation at IEEE special-value
semantics. -/
def compute_sstarF (u_L u_R p_L p_R rho_L rho_R S_L S_R : ℚ) : FV :=
  let delta_uL := FV.sub (FV.fin S_L) (FV.fin u_L)
  let delta_uR := FV.sub (FV.fin S_R) (FV.fin u_R)
  let rho_deltaSU := FV.sub (FV.mul (FV.fin rho_L) delta_uL) (FV.mul (FV.fin rho_R) delta_uR)
  FV.mul (FV.div (FV.fin 1) rho_deltaSU)
    (FV.sub
      (FV.add (FV.sub (FV.fin p_R) (FV.fin p_L))
        (FV.mul (FV.mul (FV.fin rho_L) (FV.fin u_L)) delta_uL))
      (FV.mul (FV.mul (FV.fin rho_R) (FV.fin u_R)) delta_uR))

noncomputable section

/-- Indicator modelling the float cast of a boolean mask. -/
def boolToReal (b : Prop) [Decidable b] : ℝ := if b then 1.0 else 0.0

/-- Arithmetic signal speed estimate:
`u_mean = 0.5 * (u_L + u_R)`, `a_mean = 0.5 * (a_L + a_R)`,
`S_L = min(u_mean - a_mean, u_L - a_L)`,
`S_R = max(u_mean + a_mean, u_R + a_R)`. -/
def signal_speed_Arithmetic (u_L u_R a_L a_R : ℝ) : ℝ × ℝ :=
  let u_mean := 0.5 * (u_L + u_R)
  let a_mean := 0.5 * (a_L + a_R)
  (min (u_mean - a_mean) (u_L - a_L), max (u_mean + a_mean) (u_R + a_R))

/-- Rusanov type signal speed estimate:
`S_plus = max(|u_L| + a_L, |u_R| + a_R)`, `S_L = -S_plus`,
`S_R = S_plus`. -/
def signal_speed_Rusanov (u_L u_R a_L a_R : ℝ) : ℝ × ℝ :=
  let S_plus := max (|u_L| + a_L) (|u_R| + a_R)
  (-S_plus, S_plus)

/-- Davis signal speed estimate:
`S_L = min(u_L - a_L, u_R - a_R)`, `S_R = max(u_L + a_L, u_R + a_R)`. -/
def signal_speed_Davis (u_L u_R a_L a_R : ℝ) : ℝ × ℝ :=
  (min (u_L - a_L) (u_R - a_R), max (u_L + a_L) (u_R + a_R))

/-- Signal speed estimate according to Davis (Roe-averaged variant):
`one_dens = 1 / (sqrt rho_L + sqrt rho_R)`, Roe averages of `u` and `H`,
`a_Roe = sqrt((gamma - 1) * (H_Roe - 0.5 * u_Roe * u_Roe))`,
`S_L = u_Roe - a_Roe`, `S_R = u_Roe + a_Roe`. -/
def signal_speed_Davis_2 (u_L u_R a_L a_R rho_L rho_R H_L H_R gamma : ℝ) : ℝ × ℝ :=
  let one_dens := 1.0 / (Real.sqrt rho_L + Real.sqrt rho_R)
  let u_Roe := (Real.sqrt rho_L * u_L + Real.sqrt rho_R * u_R) * one_dens
  let H_Roe := (Real.sqrt rho_L * H_L + Real.sqrt rho_R * H_R) * one_dens
  let a_Roe := Real.sqrt ((gamma - 1) * (H_Roe - 0.5 * u_Roe * u_Roe))
  (u_Roe - a_Roe, u_Roe + a_Roe)

/-- Einfeldt signal speed estimate:
`one_dens = 1 / (sqrt rho_L + sqrt rho_R)`,
`eta2 = 0.5 * sqrt rho_L * sqrt rho_R * one_dens * one_dens`,
`u_bar` the Roe average of `u`,
`d_bar = sqrt((sqrt rho_L * a_L^2 + sqrt rho_R * a_R^2) * one_dens
+ eta2 * (u_R - u_L)^2)`, `S_L = u_bar - d_bar`, `S_R = u_bar + d_bar`. -/
def signal_speed_Einfeldt (u_L u_R a_L a_R rho_L rho_R : ℝ) : ℝ × ℝ :=
  let one_dens := 1.0 / (Real.sqrt rho_L + Real.sqrt rho_R)
  let eta2 := 0.5 * Real.sqrt rho_L * Real.sqrt rho_R * one_dens * one_dens
  let u_bar := (Real.sqrt rho_L * u_L + Real.sqrt rho_R * u_R) * one_dens
  let d_bar := Real.sqrt ((Real.sqrt rho_L * a_L * a_L + Real.sqrt rho_R * a_R * a_R) * one_dens
    + eta2 * (u_R - u_L) * (u_R - u_L))
  (u_bar - d_bar, u_bar + d_bar)

/-- Star-region pressure estimate:
`rho_bar = 0.5 * (rho_L + rho_R)`, `a_bar = 0.5 * (a_L + a_R)`,
`p_pvrs = 0.5 * (p_L + p_R) - 0.5 * (u_R - u_L) * rho_bar * a_bar`,
result `= max(0, p_pvrs)`. -/
def estimate_pressure (u_L u_R a_L a_R rho_L rho_R p_L p_R : ℝ) : ℝ :=
  let rho_bar := 0.5 * (rho_L + rho_R)
  let a_bar := 0.5 * (a_L + a_R)
  let p_pvrs := 0.5 * (p_L + p_R) - 0.5 * (u_R - u_L) * rho_bar * a_bar
  max 0.0 p_pvrs

/-- The star-region pressure estimate as worded by the specification,
for comparison: `p_pvrs = (p_L+p_R)/2 - (u_R-u_L)*rho_bar*a_bar` with
`rho_bar = (rho_L+rho_R)/2`, `a_bar = (a_L+a_R)/2`,
result `= max(0, p_pvrs)` (note the missing `0.5` factor on the
velocity-difference term relative to the source). -/
def estimate_pressure_claim (u_L u_R a_L a_R rho_L rho_R p_L p_R : ℝ) : ℝ :=
  max 0 ((p_L + p_R) / 2 - (u_R - u_L) * ((rho_L + rho_R) / 2) * ((a_L + a_R) / 2))

/-- The per-side factor of the Toro estimate:
`q = 1.0 * (p_star <= p) + sqrt(1 + gamma_ * (p_star / p - 1)) *
(p_star > p)` with `gamma_ = (gamma + 1) * 0.5 / gamma`. -/
def toroQ (gamma p_star p : ℝ) : ℝ :=
  1.0 * boolToReal (p_star ≤ p)
    + Real.sqrt (1 + (gamma + 1) * 0.5 / gamma * (p_star / p - 1)) * boolToReal (p < p_star)

/-- Toro signal speed estimate: `p_star` from `estimate_pressure`,
`q_L`, `q_R` per `toroQ`, `S_L = u_L - a_L * q_L`,
`S_R = u_R + a_R * q_R`. -/
def signal_speed_Toro (u_L u_R a_L a_R rho_L rho_R p_L p_R gamma : ℝ) : ℝ × ℝ :=
  let p_star := estimate_pressure u_L u_R a_L a_R rho_L rho_R p_L p_R
  let q_L := toroQ gamma p_star p_L
  let q_R := toroQ gamma p_star p_R
  (u_L - a_L * q_L, u_R + a_R * q_R)

/-- Speed of the intermediate wave:
`delta_uL = S_L - u_L`, `delta_uR = S_R - u_R`,
`rho_deltaSU = rho_L * delta_uL - rho_R * delta_uR`,
result `= 1.0 / rho_deltaSU * (p_R - p_L + rho_L * u_L * delta_uL
- rho_R * u_R * delta_uR)`. -/
def compute_sstar (u_L u_R p_L p_R rho_L rho_R S_L S_R : ℝ) : ℝ :=
  let delta_uL := S_L - u_L
  let delta_uR := S_R - u_R
  let rho_deltaSU := rho_L * delta_uL - rho_R * delta_uR
  1.0 / rho_deltaSU * (p_R - p_L + rho_L * u_L * delta_uL - rho_R * u_R * delta_uR)

end

noncomputable section

lemma boolToReal_true {b : Prop} [Decidable b] (h : b) : boolToReal b = 1 := by
  rw [boolToReal, if_pos h]
  norm_num

lemma boolToReal_false {b : Prop} [Decidable b] (h : ¬b) : boolToReal b = 0 := by
  rw [boolToReal, if_neg h]
  norm_num

lemma toroQ_of_le {gamma p_star p : ℝ} (h : p_star ≤ p) : toroQ gamma p_star p = 1 := by
  rw [toroQ, boolToReal_true h, boolToReal_false (not_lt.mpr h)]
  norm_num

lemma toroQ_of_gt {gamma p_star p : ℝ} (h : p < p_star) :
    toroQ gamma p_star p = Real.sqrt (1 + (gamma + 1) * 0.5 / gamma * (p_star / p - 1)) := by
  rw [toroQ, boolToReal_true h, boolToReal_false (not_le.mpr h)]
  norm_num

lemma one_le_toroQ {gamma p_star p : ℝ} (hp : 0 < p) (hg : 1 < gamma) :
    1 ≤ toroQ gamma p_star p := by
  rcases le_or_lt p_star p with h | h
  · rw [toroQ_of_le h]
  · rw [toroQ_of_gt h]
    have hgpos : (0:ℝ) < gamma := lt_trans one_pos hg
    have hfac : (0:ℝ) < (gamma + 1) * 0.5 / gamma := by positivity
    have hdiv : (1:ℝ) < p_star / p := (one_lt_div hp).mpr h
    have hrad : (1:ℝ) ≤ 1 + (gamma + 1) * 0.5 / gamma * (p_star / p - 1) := by
      have hposmul : (0:ℝ) < (gamma + 1) * 0.5 / gamma * (p_star / p - 1) :=
        mul_pos hfac (by linarith)
      linarith
    calc (1:ℝ) = Real.sqrt 1 := Real.sqrt_one.symm
    _ ≤ _ := Real.sqrt_le_sqrt hrad

/-- Claim C2 (counterexample): at `u_L=0, u_R=2, a_L=a_R=1,
rho_L=rho_R=1, p_L=p_R=2` the source returns `1` while the formula of
the claim (no `0.5` factor on the velocity-difference term) gives `0`. -/
theorem estimate_pressure_claim_false :
    estimate_pressure 0 2 1 1 1 1 2 2 = 1 ∧
    estimate_pressure_claim 0 2 1 1 1 1 2 2 = 0 ∧
    estimate_pressure 0 2 1 1 1 1 2 2 ≠ estimate_pressure_claim 0 2 1 1 1 1 2 2 := by
  norm_num [estimate_pressure, estimate_pressure_claim]

/-- Claim C2 (amended): `estimate_pressure` returns
`max(0, p_pvrs)` with `p_pvrs = (p_L+p_R)/2 - 0.5*(u_R-u_L)*rho_bar*a_bar`,
`rho_bar = (rho_L+rho_R)/2`, `a_bar = (a_L+a_R)/2`, elementwise. -/
theorem estimate_pressure_formula (u_L u_R a_L a_R rho_L rho_R p_L p_R : ℝ) :
    estimate_pressure u_L u_R a_L a_R rho_L rho_R p_L p_R =
      max 0 ((p_L + p_R) / 2
        - 0.5 * (u_R - u_L) * ((rho_L + rho_R) / 2) * ((a_L + a_R) / 2)) := by
  show max 0.0 (0.5 * (p_L + p_R) - 0.5 * (u_R - u_L) * (0.5 * (rho_L + rho_R)) * (0.5 * (a_L + a_R))) = _
  norm_num
  ring_nf

/-- Claim C4: when the denominator `rho_L*(S_L-u_L) - rho_R*(S_R-u_R)`
is nonzero, `compute_sstar` returns exactly
`(p_R - p_L + rho_L*u_L*(S_L-u_L) - rho_R*u_R*(S_R-u_R))` divided by
that denominator. -/
theorem compute_sstar_formula (u_L u_R p_L p_R rho_L rho_R S_L S_R : ℝ)
    (h : rho_L * (S_L - u_L) - rho_R * (S_R - u_R) ≠ 0) :
    compute_sstar u_L u_R p_L p_R rho_L rho_R S_L S_R =
      (p_R - p_L + rho_L * u_L * (S_L - u_L) - rho_R * u_R * (S_R - u_R)) /
        (rho_L * (S_L - u_L) - rho_R * (S_R - u_R)) := by
  show 1.0 / (rho_L * (S_L - u_L) - rho_R * (S_R - u_R))
      * (p_R - p_L + rho_L * u_L * (S_L - u_L) - rho_R * u_R * (S_R - u_R)) = _
  rw [div_mul_eq_mul_div]
  norm_num

/-- Claim C4 (witness): a concrete instance with nonzero denominator. -/
theorem compute_sstar_formula_witness :
    ((1:ℝ) * ((1:ℝ) - 0) - 1 * (-1 - 0) ≠ 0) ∧
    compute_sstar 0 0 0 0 1 1 1 (-1) =
      (0 - 0 + 1 * 0 * (1 - 0) - 1 * 0 * (-1 - 0)) / (1 * (1 - 0) - 1 * (-1 - 0)) :=
  ⟨by norm_num, compute_sstar_formula 0 0 0 0 1 1 1 (-1) (by norm_num)⟩

/-- Claim C6: for every input, Rusanov returns `S_R = -S_L` with
`S_R = max(|u_L|+a_L, |u_R|+a_R)`, with no precondition. -/
theorem rusanov_symmetry (u_L u_R a_L a_R : ℝ) :
    (signal_speed_Rusanov u_L u_R a_L a_R).2 = -(signal_speed_Rusanov u_L u_R a_L a_R).1 ∧
    (signal_speed_Rusanov u_L u_R a_L a_R).2 = max (|u_L| + a_L) (|u_R| + a_R) := by
  constructor
  · show max (|u_L| + a_L) (|u_R| + a_R) = - - max (|u_L| + a_L) (|u_R| + a_R)
    rw [neg_neg]
  · rfl

/-- Claim C7: wherever `p_pvrs < 0`, `estimate_pressure` returns exactly
`0`; and its output is nonnegative for every input. -/
theorem estimate_pressure_floor (u_L u_R a_L a_R rho_L rho_R p_L p_R : ℝ) :
    (0.5 * (p_L + p_R) - 0.5 * (u_R - u_L) * (0.5 * (rho_L + rho_R)) * (0.5 * (a_L + a_R)) < 0 →
      estimate_pressure u_L u_R a_L a_R rho_L rho_R p_L p_R = 0) ∧
    0 ≤ estimate_pressure u_L u_R a_L a_R rho_L rho_R p_L p_R := by
  constructor
  · intro h
    show max 0.0 (0.5 * (p_L + p_R) - 0.5 * (u_R - u_L) * (0.5 * (rho_L + rho_R)) * (0.5 * (a_L + a_R))) = 0
    rw [max_eq_left (by norm_num; linarith)]
    norm_num
  · show (0:ℝ) ≤ max 0.0 (0.5 * (p_L + p_R) - 0.5 * (u_R - u_L) * (0.5 * (rho_L + rho_R)) * (0.5 * (a_L + a_R)))
    exact le_trans (by norm_num) (le_max_left _ _)

/-- Claim C7 (witness): a concrete input with `p_pvrs = -5 < 0`. -/
theorem estimate_pressure_floor_witness :
    estimate_pressure 0 10 1 1 1 1 0 0 = 0 ∧ (0:ℝ) ≤ estimate_pressure 0 10 1 1 1 1 0 0 :=
  ⟨(estimate_pressure_floor 0 10 1 1 1 1 0 0).1 (by norm_num),
   (estimate_pressure_floor 0 10 1 1 1 1 0 0).2⟩

/-- Claim C8: at the branch boundary `p_star = p` (here for `p_L`, and
identically for `p_R` since `toroQ` is the common per-side factor), the
square-root branch evaluates to `1` and the blended factor `toroQ`
equals `1`: the two branches agree, no discontinuity. -/
theorem toro_branch_continuity (p gamma : ℝ) (hp : 0 < p) (hg : 1 < gamma) :
    Real.sqrt (1 + (gamma + 1) * 0.5 / gamma * (p / p - 1)) = 1 ∧ toroQ gamma p p = 1 := by
  have h1 : p / p - 1 = 0 := by
    rw [div_self (ne_of_gt hp)]
    ring
  constructor
  · rw [h1, mul_zero, add_zero, Real.sqrt_one]
  · exact toroQ_of_le (le_refl p)

/-- Claim C8 (witness): the branch boundary at `p = 1`, `gamma = 2`. -/
theorem toro_branch_continuity_witness :
    Real.sqrt (1 + ((2:ℝ) + 1) * 0.5 / 2 * (1 / 1 - 1)) = 1 ∧ toroQ 2 1 1 = 1 :=
  toro_branch_continuity 1 2 (by norm_num) (by norm_num)

/-- Claim C10: on the same four inputs and with no sign preconditions,
the Davis bounds contain the Arithmetic bounds. -/
theorem davis_contains_arithmetic (u_L u_R a_L a_R : ℝ) :
    (signal_speed_Davis u_L u_R a_L a_R).1 ≤ (signal_speed_Arithmetic u_L u_R a_L a_R).1 ∧
    (signal_speed_Arithmetic u_L u_R a_L a_R).2 ≤ (signal_speed_Davis u_L u_R a_L a_R).2 := by
  constructor
  · show min (u_L - a_L) (u_R - a_R) ≤ min (0.5 * (u_L + u_R) - 0.5 * (a_L + a_R)) (u_L - a_L)
    apply le_min
    · rcases le_total (u_L - a_L) (u_R - a_R) with h | h
      · rw [min_eq_left h]; linarith
      · rw [min_eq_right h]; linarith
    · exact min_le_left _ _
  · show max (0.5 * (u_L + u_R) + 0.5 * (a_L + a_R)) (u_R + a_R) ≤ max (u_L + a_L) (u_R + a_R)
    apply max_le
    · rcases le_total (u_L + a_L) (u_R + a_R) with h | h
      · rw [max_eq_right h]; linarith
      · rw [max_eq_left h]; linarith
    · exact le_max_right _ _

end

noncomputable section

lemma sub_sqrt_le_add_sqrt (x y : ℝ) : x - Real.sqrt y ≤ x + Real.sqrt y := by
  have h := Real.sqrt_nonneg y
  linarith

/-- Claim C1 (amended): for physically valid inputs
(`a_L, a_R > 0`, `rho_L, rho_R > 0`), the five estimators Arithmetic,
Rusanov, Davis, Davis-Roe and Einfeldt return `S_L ≤ S_R` elementwise;
Toro is excluded, because it can violate the ordering on physically
valid inputs (see the counterexample). -/
theorem signal_speeds_ordering (u_L u_R a_L a_R rho_L rho_R H_L H_R gamma : ℝ)
    (ha_L : 0 < a_L) (ha_R : 0 < a_R) (hrho_L : 0 < rho_L) (hrho_R : 0 < rho_R) :
    (signal_speed_Arithmetic u_L u_R a_L a_R).1 ≤ (signal_speed_Arithmetic u_L u_R a_L a_R).2 ∧
    (signal_speed_Rusanov u_L u_R a_L a_R).1 ≤ (signal_speed_Rusanov u_L u_R a_L a_R).2 ∧
    (signal_speed_Davis u_L u_R a_L a_R).1 ≤ (signal_speed_Davis u_L u_R a_L a_R).2 ∧
    (signal_speed_Davis_2 u_L u_R a_L a_R rho_L rho_R H_L H_R gamma).1 ≤
      (signal_speed_Davis_2 u_L u_R a_L a_R rho_L rho_R H_L H_R gamma).2 ∧
    (signal_speed_Einfeldt u_L u_R a_L a_R rho_L rho_R).1 ≤
      (signal_speed_Einfeldt u_L u_R a_L a_R rho_L rho_R).2 := by
  refine ⟨?_, ?_, ?_, ?_, ?_⟩
  · show min (0.5 * (u_L + u_R) - 0.5 * (a_L + a_R)) (u_L - a_L) ≤
      max (0.5 * (u_L + u_R) + 0.5 * (a_L + a_R)) (u_R + a_R)
    refine le_trans (min_le_left _ _) (le_trans ?_ (le_max_left _ _))
    linarith
  · show -max (|u_L| + a_L) (|u_R| + a_R) ≤ max (|u_L| + a_L) (|u_R| + a_R)
    have h0 : (0:ℝ) ≤ max (|u_L| + a_L) (|u_R| + a_R) :=
      le_trans (add_nonneg (abs_nonneg u_L) ha_L.le) (le_max_left _ _)
    linarith
  · show min (u_L - a_L) (u_R - a_R) ≤ max (u_L + a_L) (u_R + a_R)
    refine le_trans (min_le_left _ _) (le_trans ?_ (le_max_left _ _))
    linarith
  · exact sub_sqrt_le_add_sqrt _ _
  · exact sub_sqrt_le_add_sqrt _ _

/-- Claim C1 (witness): the five orderings at a concrete valid input. -/
theorem signal_speeds_ordering_witness :
    (signal_speed_Arithmetic 1 (-1) 1 1).1 ≤ (signal_speed_Arithmetic 1 (-1) 1 1).2 ∧
    (signal_speed_Rusanov 1 (-1) 1 1).1 ≤ (signal_speed_Rusanov 1 (-1) 1 1).2 ∧
    (signal_speed_Davis 1 (-1) 1 1).1 ≤ (signal_speed_Davis 1 (-1) 1 1).2 ∧
    (signal_speed_Davis_2 1 (-1) 1 1 1 1 2 2 1.4).1 ≤
      (signal_speed_Davis_2 1 (-1) 1 1 1 1 2 2 1.4).2 ∧
    (signal_speed_Einfeldt 1 (-1) 1 1 1 1).1 ≤ (signal_speed_Einfeldt 1 (-1) 1 1 1 1).2 :=
  signal_speeds_ordering 1 (-1) 1 1 1 1 2 2 1.4
    (by norm_num) (by norm_num) (by norm_num) (by norm_num)

/-- Claim C1 (counterexample): at the physically valid input
`u_L = 30, u_R = -30, a_L = a_R = 1/10, rho_L = rho_R = 1,
p_L = p_R = 4, gamma = 2` the Toro estimator returns
`S_L = 239/8 > S_R = -239/8`, violating `S_L ≤ S_R`. -/
theorem toro_ordering_violation :
    ((0:ℝ) < 1 / 10 ∧ (0:ℝ) < 1 ∧ (0:ℝ) ≤ 4 ∧ (1:ℝ) < 2) ∧
    ¬ ((signal_speed_Toro 30 (-30) (1 / 10) (1 / 10) 1 1 4 4 2).1 ≤
        (signal_speed_Toro 30 (-30) (1 / 10) (1 / 10) 1 1 4 4 2).2) := by
  have hp : estimate_pressure 30 (-30) (1 / 10) (1 / 10) 1 1 4 4 = 7 := by
    show max 0.0 (0.5 * ((4:ℝ) + 4) - 0.5 * (-30 - 30) * (0.5 * (1 + 1)) * (0.5 * (1 / 10 + 1 / 10))) = 7
    norm_num
  have hq : toroQ 2 7 4 = 5 / 4 := by
    rw [toroQ_of_gt (by norm_num : (4:ℝ) < 7)]
    rw [show (1:ℝ) + (2 + 1) * 0.5 / 2 * (7 / 4 - 1) = (5 / 4) ^ 2 by norm_num]
    rw [Real.sqrt_sq (by norm_num : (0:ℝ) ≤ 5 / 4)]
  refine ⟨⟨by norm_num, by norm_num, by norm_num, by norm_num⟩, ?_⟩
  show ¬ ((30:ℝ) - 1 / 10 * toroQ 2 (estimate_pressure 30 (-30) (1 / 10) (1 / 10) 1 1 4 4) 4 ≤
      -30 + 1 / 10 * toroQ 2 (estimate_pressure 30 (-30) (1 / 10) (1 / 10) 1 1 4 4) 4)
  rw [hp, hq]
  norm_num

end

noncomputable section

/-- Claim C3 (counterexample): at the uniform state `u = 1`, `a = 1`
the Rusanov estimator returns `(-2, 2)`, not `(u - a, u + a) = (0, 2)`. -/
theorem rusanov_uniform_violation :
    signal_speed_Rusanov 1 1 1 1 = (-2, 2) ∧
    signal_speed_Rusanov 1 1 1 1 ≠ ((1:ℝ) - 1, (1:ℝ) + 1) := by
  have h : signal_speed_Rusanov 1 1 1 1 = (-2, 2) := by
    show (-max (|(1:ℝ)| + 1) (|(1:ℝ)| + 1), max (|(1:ℝ)| + 1) (|(1:ℝ)| + 1)) = (-2, 2)
    norm_num
  refine ⟨h, ?_⟩
  rw [h]
  intro hc
  have h1 : (-2:ℝ) = 1 - 1 := congrArg Prod.fst hc
  norm_num at h1

/-- Claim C3 (amended): for a uniform state `u_L = u_R = u`,
`a_L = a_R = a` with physically valid `a ≥ 0`, `rho > 0`, `p > 0`,
`gamma > 1` and `H` consistent with `a`
(`H = 0.5 u² + a²/(gamma-1)`), the five estimators Arithmetic, Davis,
Davis-Roe, Einfeldt and Toro return `S_L = u - a`, `S_R = u + a`;
Rusanov is excluded: it returns `(-(|u|+a), |u|+a)`, which differs from
`(u-a, u+a)` whenever `u ≠ 0` (see the counterexample). -/
theorem uniform_state_consistency (u a rho p H gamma : ℝ)
    (ha : 0 ≤ a) (hrho : 0 < rho) (hp : 0 < p) (hg : 1 < gamma)
    (hH : H = 0.5 * u * u + a ^ 2 / (gamma - 1)) :
    signal_speed_Arithmetic u u a a = (u - a, u + a) ∧
    signal_speed_Davis u u a a = (u - a, u + a) ∧
    signal_speed_Davis_2 u u a a rho rho H H gamma = (u - a, u + a) ∧
    signal_speed_Einfeldt u u a a rho rho = (u - a, u + a) ∧
    signal_speed_Toro u u a a rho rho p p gamma = (u - a, u + a) := by
  have hgne : gamma - 1 ≠ 0 := by
    intro hc
    apply absurd hg
    rw [show gamma = 1 by linarith]
    exact lt_irrefl 1
  have hs : 0 < Real.sqrt rho := Real.sqrt_pos.mpr hrho
  have hsne : Real.sqrt rho + Real.sqrt rho ≠ 0 := by positivity
  refine ⟨?_, ?_, ?_, ?_, ?_⟩
  · show (min (0.5 * (u + u) - 0.5 * (a + a)) (u - a), max (0.5 * (u + u) + 0.5 * (a + a)) (u + a)) = (u - a, u + a)
    rw [show 0.5 * (u + u) - 0.5 * (a + a) = u - a by ring,
      show 0.5 * (u + u) + 0.5 * (a + a) = u + a by ring, min_self, max_self]
  · show (min (u - a) (u - a), max (u + a) (u + a)) = (u - a, u + a)
    rw [min_self, max_self]
  · show ((Real.sqrt rho * u + Real.sqrt rho * u) * (1.0 / (Real.sqrt rho + Real.sqrt rho)) -
        Real.sqrt ((gamma - 1) * ((Real.sqrt rho * H + Real.sqrt rho * H) * (1.0 / (Real.sqrt rho + Real.sqrt rho)) -
          0.5 * ((Real.sqrt rho * u + Real.sqrt rho * u) * (1.0 / (Real.sqrt rho + Real.sqrt rho))) *
            ((Real.sqrt rho * u + Real.sqrt rho * u) * (1.0 / (Real.sqrt rho + Real.sqrt rho))))),
      (Real.sqrt rho * u + Real.sqrt rho * u) * (1.0 / (Real.sqrt rho + Real.sqrt rho)) +
        Real.sqrt ((gamma - 1) * ((Real.sqrt rho * H + Real.sqrt rho * H) * (1.0 / (Real.sqrt rho + Real.sqrt rho)) -
          0.5 * ((Real.sqrt rho * u + Real.sqrt rho * u) * (1.0 / (Real.sqrt rho + Real.sqrt rho))) *
            ((Real.sqrt rho * u + Real.sqrt rho * u) * (1.0 / (Real.sqrt rho + Real.sqrt rho)))))) = (u - a, u + a)
    have hu : (Real.sqrt rho * u + Real.sqrt rho * u) * (1.0 / (Real.sqrt rho + Real.sqrt rho)) = u := by
      field_simp
      ring
    have hHH : (Real.sqrt rho * H + Real.sqrt rho * H) * (1.0 / (Real.sqrt rho + Real.sqrt rho)) = H := by
      field_simp
      ring
    rw [hu, hHH]
    have hrad : (gamma - 1) * (H - 0.5 * u * u) = a ^ 2 := by
      rw [hH]
      field_simp
      ring
    rw [hrad, Real.sqrt_sq ha]
  · show ((Real.sqrt rho * u + Real.sqrt rho * u) * (1.0 / (Real.sqrt rho + Real.sqrt rho)) -
        Real.sqrt ((Real.sqrt rho * a * a + Real.sqrt rho * a * a) * (1.0 / (Real.sqrt rho + Real.sqrt rho)) +
          0.5 * Real.sqrt rho * Real.sqrt rho * (1.0 / (Real.sqrt rho + Real.sqrt rho)) *
            (1.0 / (Real.sqrt rho + Real.sqrt rho)) * (u - u) * (u - u)),
      (Real.sqrt rho * u + Real.sqrt rho * u) * (1.0 / (Real.sqrt rho + Real.sqrt rho)) +
        Real.sqrt ((Real.sqrt rho * a * a + Real.sqrt rho * a * a) * (1.0 / (Real.sqrt rho + Real.sqrt rho)) +
          0.5 * Real.sqrt rho * Real.sqrt rho * (1.0 / (Real.sqrt rho + Real.sqrt rho)) *
            (1.0 / (Real.sqrt rho + Real.sqrt rho)) * (u - u) * (u - u))) = (u - a, u + a)
    have hu : (Real.sqrt rho * u + Real.sqrt rho * u) * (1.0 / (Real.sqrt rho + Real.sqrt rho)) = u := by
      field_simp
      ring
    have hd : (Real.sqrt rho * a * a + Real.sqrt rho * a * a) * (1.0 / (Real.sqrt rho + Real.sqrt rho)) +
        0.5 * Real.sqrt rho * Real.sqrt rho * (1.0 / (Real.sqrt rho + Real.sqrt rho)) *
          (1.0 / (Real.sqrt rho + Real.sqrt rho)) * (u - u) * (u - u) = a ^ 2 := by
      field_simp
      ring
    rw [hu, hd, Real.sqrt_sq ha]
  · have hps : estimate_pressure u u a a rho rho p p = p := by
      show max 0.0 (0.5 * (p + p) - 0.5 * (u - u) * (0.5 * (rho + rho)) * (0.5 * (a + a))) = p
      rw [show 0.5 * (p + p) - 0.5 * (u - u) * (0.5 * (rho + rho)) * (0.5 * (a + a)) = p by ring]
      rw [max_eq_right (by norm_num; linarith : (0.0:ℝ) ≤ p)]
    show (u - a * toroQ gamma (estimate_pressure u u a a rho rho p p) p,
      u + a * toroQ gamma (estimate_pressure u u a a rho rho p p) p) = (u - a, u + a)
    rw [hps, toroQ_of_le (le_refl p), mul_one]

/-- Claim C3 (witness): the uniform state `u = 2`, `a = 1`, `rho = 1`,
`p = 1`, `gamma = 2`, `H = 3`. -/
theorem uniform_state_consistency_witness :
    signal_speed_Arithmetic 2 2 1 1 = ((2:ℝ) - 1, (2:ℝ) + 1) ∧
    signal_speed_Davis 2 2 1 1 = ((2:ℝ) - 1, (2:ℝ) + 1) ∧
    signal_speed_Davis_2 2 2 1 1 1 1 3 3 2 = ((2:ℝ) - 1, (2:ℝ) + 1) ∧
    signal_speed_Einfeldt 2 2 1 1 1 1 = ((2:ℝ) - 1, (2:ℝ) + 1) ∧
    signal_speed_Toro 2 2 1 1 1 1 1 1 2 = ((2:ℝ) - 1, (2:ℝ) + 1) :=
  uniform_state_consistency 2 1 1 1 3 2 (by norm_num) (by norm_num) (by norm_num)
    (by norm_num) (by norm_num)

end

noncomputable section

/-- Claim C9: for `a_L, a_R ≥ 0`, `p_L, p_R > 0`, `gamma > 1`, the Toro
factors satisfy `q_L ≥ 1` and `q_R ≥ 1`, hence its outputs satisfy
`S_L ≤ u_L - a_L` and `S_R ≥ u_R + a_R` elementwise. -/
theorem toro_bounds_wide (u_L u_R a_L a_R rho_L rho_R p_L p_R gamma : ℝ)
    (ha_L : 0 ≤ a_L) (ha_R : 0 ≤ a_R) (hp_L : 0 < p_L) (hp_R : 0 < p_R) (hg : 1 < gamma) :
    1 ≤ toroQ gamma (estimate_pressure u_L u_R a_L a_R rho_L rho_R p_L p_R) p_L ∧
    1 ≤ toroQ gamma (estimate_pressure u_L u_R a_L a_R rho_L rho_R p_L p_R) p_R ∧
    (signal_speed_Toro u_L u_R a_L a_R rho_L rho_R p_L p_R gamma).1 ≤ u_L - a_L ∧
    u_R + a_R ≤ (signal_speed_Toro u_L u_R a_L a_R rho_L rho_R p_L p_R gamma).2 := by
  have hqL : 1 ≤ toroQ gamma (estimate_pressure u_L u_R a_L a_R rho_L rho_R p_L p_R) p_L :=
    one_le_toroQ hp_L hg
  have hqR : 1 ≤ toroQ gamma (estimate_pressure u_L u_R a_L a_R rho_L rho_R p_L p_R) p_R :=
    one_le_toroQ hp_R hg
  refine ⟨hqL, hqR, ?_, ?_⟩
  · show u_L - a_L * toroQ gamma (estimate_pressure u_L u_R a_L a_R rho_L rho_R p_L p_R) p_L ≤
      u_L - a_L
    have h := mul_le_mul_of_nonneg_left hqL ha_L
    rw [mul_one] at h
    linarith
  · show u_R + a_R ≤
      u_R + a_R * toroQ gamma (estimate_pressure u_L u_R a_L a_R rho_L rho_R p_L p_R) p_R
    have h := mul_le_mul_of_nonneg_left hqR ha_R
    rw [mul_one] at h
    linarith

/-- Claim C9 (witness): the Toro bounds at a concrete valid input. -/
theorem toro_bounds_wide_witness :
    1 ≤ toroQ 2 (estimate_pressure 0 0 1 1 1 1 1 1) 1 ∧
    1 ≤ toroQ 2 (estimate_pressure 0 0 1 1 1 1 1 1) 1 ∧
    (signal_speed_Toro 0 0 1 1 1 1 1 1 2).1 ≤ (0:ℝ) - 1 ∧
    (0:ℝ) + 1 ≤ (signal_speed_Toro 0 0 1 1 1 1 1 1 2).2 :=
  toro_bounds_wide 0 0 1 1 1 1 1 1 2 (by norm_num) (by norm_num) (by norm_num)
    (by norm_num) (by norm_num)

end

lemma FV.mul_inf_fin_not_finite (c : ℚ) : (FV.mul FV.inf (FV.fin c)).isFinite = false := by
  rw [FV.mul]
  split_ifs <;> rfl

/-- Claim C5: wherever `S_L = u_L` and `S_R = u_R`, the denominator of
`compute_sstar` is exactly zero and the IEEE result is an infinity or
NaN, never a finite value. -/
theorem compute_sstar_degenerate (u_L u_R p_L p_R rho_L rho_R S_L S_R : ℚ)
    (hL : S_L = u_L) (hR : S_R = u_R) :
    (compute_sstarF u_L u_R p_L p_R rho_L rho_R S_L S_R).isFinite = false := by
  rw [hL, hR]
  have hz : ∀ x : ℚ, FV.sub (FV.fin x) (FV.fin x) = FV.fin 0 := by
    intro x
    simp [FV.sub, FV.neg, FV.add]
  have hm0 : ∀ x : ℚ, FV.mul (FV.fin x) (FV.fin 0) = FV.fin 0 := by
    intro x
    simp [FV.mul]
  show (FV.mul
      (FV.div (FV.fin 1)
        (FV.sub (FV.mul (FV.fin rho_L) (FV.sub (FV.fin u_L) (FV.fin u_L)))
          (FV.mul (FV.fin rho_R) (FV.sub (FV.fin u_R) (FV.fin u_R)))))
      (FV.sub
        (FV.add (FV.sub (FV.fin p_R) (FV.fin p_L))
          (FV.mul (FV.mul (FV.fin rho_L) (FV.fin u_L)) (FV.sub (FV.fin u_L) (FV.fin u_L))))
        (FV.mul (FV.mul (FV.fin rho_R) (FV.fin u_R))
          (FV.sub (FV.fin u_R) (FV.fin u_R))))).isFinite = false
  rw [hz u_L, hz u_R, hm0 rho_L, hm0 rho_R, hz 0]
  have hdiv : FV.div (FV.fin 1) (FV.fin 0) = FV.inf := by
    rw [FV.div]
    norm_num
  have hmL : FV.mul (FV.mul (FV.fin rho_L) (FV.fin u_L)) (FV.fin 0) = FV.fin 0 := by
    simp [FV.mul]
  have hmR : FV.mul (FV.mul (FV.fin rho_R) (FV.fin u_R)) (FV.fin 0) = FV.fin 0 := by
    simp [FV.mul]
  have hnum : FV.sub (FV.add (FV.sub (FV.fin p_R) (FV.fin p_L)) (FV.fin 0)) (FV.fin 0) =
      FV.fin (p_R - p_L) := by
    simp [FV.sub, FV.add, FV.neg, sub_eq_add_neg]
  rw [hmL, hmR, hnum, hdiv]
  exact FV.mul_inf_fin_not_finite _

/-- Claim C5 (witness): a concrete degenerate input, evaluated. -/
theorem compute_sstar_degenerate_witness :
    ((1:ℚ) = 1 ∧ (2:ℚ) = 2) ∧
    (compute_sstarF 1 2 3 4 5 6 1 2).isFinite = false :=
  ⟨⟨rfl, rfl⟩, compute_sstar_degenerate 1 2 3 4 5 6 1 2 rfl rfl⟩
